import Mathlib

/-!
Shallow embedding of `vault_cli/settings.py` (configuration resolution for
the vault CLI tool), together with theorems checking the repository's
specification against the code.

Python values appearing in settings dictionaries are modelled by the
inductive type `Value` (None, bool, str, dict).  A Python `dict` is
modelled as an association list `List (String × Value)` in insertion
order; the helper operations `dget` / `dset` / `dpop` / `dictUpdate`
mirror `d[k]` / `d[k] = v` / `d.pop(k, None)` / `d.update(...)`.

The filesystem, the YAML parser and standard input are abstracted by the
structure `FS`: `os.walk` of the configuration directory becomes a list
of `(dir_path, file_names)` pairs, a YAML config file becomes either
"absent" (`FileNotFoundError`), "unreadable" (`IOError`) or a parsed
dictionary, and `open(path).read()` becomes a partial map from paths to
raw contents.

Python string primitives used by the code (`str.lower`, `str.strip`,
`str.replace("-", "_")`, `str.startswith`, `str.endswith`, slicing,
`", ".join`, `os.path.join`, `os.path.expanduser`, `sorted`) are
re-implemented over `List Char` so that every definition evaluates
inside the kernel; `sorted` is modelled by a stable insertion sort,
which agrees with Python's stable `sorted` on any list.
-/

/-- A Python value as it can occur in a settings dictionary:
`None`, a `bool`, a `str`, or a nested `dict`. -/
inductive Value where
  | vNone : Value
  | vBool : Bool → Value
  | vStr : String → Value
  | vDict : List (String × Value) → Value

/-- `types.SettingsDict`: a Python dict from setting name to value,
as an association list in insertion order (keys unique). -/
abbrev SettingsDict := List (String × Value)

/-- Python `d.get(k)` / `d[k]`: the value at the first occurrence of `k`. -/
def dget (d : SettingsDict) (k : String) : Option Value :=
  match d with
  | [] => none
  | (k', v) :: rest => if k' = k then some v else dget rest k

/-- Python `d[k] = v`: replace the value at `k` in place if present,
else append a new entry (insertion-order semantics of Python dicts). -/
def dset (d : SettingsDict) (k : String) (v : Value) : SettingsDict :=
  match d with
  | [] => [(k, v)]
  | (k', v') :: rest => if k' = k then (k', v) :: rest else (k', v') :: dset rest k v

/-- Python `d.pop(k, None)` (the dictionary after removal): all entries
whose key differs from `k`. -/
def dpop (d : SettingsDict) (k : String) : SettingsDict :=
  d.filter (fun e => e.1 != k)

/-- The keys of a dictionary, in order. -/
def dkeys (d : SettingsDict) : List String :=
  d.map Prod.fst

/-- Python `target.update(overrides)`: set every key of `overrides`
into `target`, in iteration order. -/
def dictUpdate (target overrides : SettingsDict) : SettingsDict :=
  overrides.foldl (fun t e => dset t e.1 e.2) target

/-- Python `isinstance(v, dict)`. -/
def Value.isDict : Value → Bool
  | .vDict _ => true
  | _ => false

/-- Python `isinstance(v, str)`. -/
def Value.isStr : Value → Bool
  | .vStr _ => true
  | _ => false

/-- Python truthiness of a settings value: `None`, `False`, `""` and
`{}` are falsy, everything else truthy. -/
def truthy : Value → Bool
  | .vNone => false
  | .vBool b => b
  | .vStr s => s != ""
  | .vDict d => !d.isEmpty

/-- Truthiness of `d.pop(k, None)`: a missing key yields Python `None`,
which is falsy. -/
def optTruthy : Option Value → Bool
  | none => false
  | some v => truthy v

/-! ### Python string primitives over `List Char` -/

/-- Code-point comparison of two strings (Python `<=` on `str`),
lexicographic over the character lists. -/
def charsLe : List Char → List Char → Bool
  | [], _ => true
  | _ :: _, [] => false
  | a :: as, b :: bs =>
    if a.toNat < b.toNat then true
    else if b.toNat < a.toNat then false
    else charsLe as bs

/-- Python `a <= b` on strings. -/
def strLe (a b : String) : Bool :=
  charsLe a.data b.data

/-- Insert a string into a sorted list, keeping existing equal elements
in front (stability). -/
def insertSorted (x : String) : List String → List String
  | [] => [x]
  | y :: ys => if strLe x y then x :: y :: ys else y :: insertSorted x ys

/-- Python `sorted` on a list of strings: a stable sort by code-point
order (insertion sort, which is stable, hence extensionally equal to
Python's stable sort). -/
def sortStrings : List String → List String
  | [] => []
  | x :: xs => insertSorted x (sortStrings xs)

/-- Python `s.startswith(p)`. -/
def strStartsWith (s p : String) : Bool :=
  s.data.take p.data.length == p.data

/-- Python `s.endswith(p)`. -/
def strEndsWith (s p : String) : Bool :=
  s.data.reverse.take p.data.length == p.data.reverse

/-- Python `s[n:]`. -/
def strDrop (s : String) (n : Nat) : String :=
  ⟨s.data.drop n⟩

/-- ASCII lowering of one character (the code's keys are ASCII, so this
models Python `str.lower` on the inputs that occur). -/
def charToLower (c : Char) : Char :=
  if 65 ≤ c.toNat ∧ c.toNat ≤ 90 then Char.ofNat (c.toNat + 32) else c

/-- Python `s.lower()`. -/
def strToLower (s : String) : String :=
  ⟨s.data.map charToLower⟩

/-- Python whitespace (the set stripped by `str.strip()`):
space, tab, newline, carriage return, vertical tab, form feed. -/
def isPySpace (c : Char) : Bool :=
  c == ' ' || c == '\t' || c == '\n' || c == '\r' || c.toNat == 11 || c.toNat == 12

/-- Python `s.strip()`: remove leading and trailing whitespace. -/
def strTrim (s : String) : String :=
  ⟨((s.data.dropWhile isPySpace).reverse.dropWhile isPySpace).reverse⟩

/-- Python `s.replace("-", "_")` (a one-character pattern, hence a
character-wise map). -/
def dashToUnderscoreStr (s : String) : String :=
  ⟨s.data.map (fun c => if c == '-' then '_' else c)⟩

/-- Python `", ".join(strings)`. -/
def joinComma : List String → String
  | [] => ""
  | [x] => x
  | x :: rest => x ++ ", " ++ joinComma rest

/-- `os.path.join(a, b)`: an absolute second component discards the
first; otherwise join with a slash separator. -/
def pyJoin (a b : String) : String :=
  if strStartsWith b "/" then b else a ++ "/" ++ b

/-- `os.path.expanduser(p)` with home directory `home`: expand a
leading `~`. -/
def expanduser (home p : String) : String :=
  if strStartsWith p "~" then home ++ strDrop p 1 else p

mutual

/-- Python `repr(v)` for the values of our model (string escaping
inside `repr` of a `str` is not modelled: the messages we reason about
contain no quotes inside values). -/
def pyRepr : Value → String
  | .vNone => "None"
  | .vBool true => "True"
  | .vBool false => "False"
  | .vStr s => "\x27" ++ s ++ "\x27"
  | .vDict entries => "\x7b" ++ pyReprEntries entries ++ "\x7d"

/-- `repr` of the entries of a Python dict, comma separated. -/
def pyReprEntries : List (String × Value) → String
  | [] => ""
  | [(k, v)] => "\x27" ++ k ++ "\x27: " ++ pyRepr v
  | (k, v) :: rest => "\x27" ++ k ++ "\x27: " ++ pyRepr v ++ ", " ++ pyReprEntries rest

end

/-- Python `str(v)` as used inside f-strings: a `str` is inserted
verbatim, every other value via `repr`. -/
def pyStr : Value → String
  | .vStr s => s
  | v => pyRepr v

/-- `str()` of an optional value, a missing one being Python `None`. -/
def pyStrOpt : Option Value → String
  | none => "None"
  | some v => pyStr v

/-! ### Errors and the filesystem model -/

/-- The ways resolution can fail: `exceptions.VaultSettingsError` with
its message, a Python `assert` failure, and an uncaught
`FileNotFoundError` from `open()` carrying the path given to
`read_file`. -/
inductive Err where
  | settingsErr : String → Err
  | assertionErr : Err
  | ioErr : String → Err
deriving DecidableEq

/-- Abstraction of the filesystem, the YAML parser and standard input:
`walk` is the result of `os.walk(CONFIG_DIR)` as `(dir_path,
file_names)` pairs (empty when the directory does not exist); `parsed`
maps an (expanded) path to `none` for `FileNotFoundError`, `some none`
for `IOError`, and `some (some d)` for a successfully parsed YAML
dictionary (`yaml.safe_load(f) or {}`); `raw` maps an (expanded) path
to its raw text content, `none` meaning `FileNotFoundError`; `stdin`
is the content of standard input; `home` expands a leading `~`. -/
structure FS where
  walk : List (String × List String)
  parsed : String → Option (Option SettingsDict)
  raw : String → Option String
  stdin : String
  home : String

/-! ### The embedded code of `vault_cli/settings.py` -/

/-- `STATIC_CONFIG_FILES`: the fixed static paths, ordered by
increasing priority. -/
def STATIC_CONFIG_FILES : List String :=
  ["/etc/vault.yml", "~/.vault.yml", "./.vault.yml"]

/-- `CONFIG_DIR`. -/
def CONFIG_DIR : String :=
  "/etc/vault.d"

/-- The comprehension inside `compute_config_file_list`: for every
directory yielded by `os.walk(CONFIG_DIR)`, the `.yml`/`.yaml` file
names joined onto their directory (note `os.path.join(CONFIG_DIR,
dir_path, file_name)` where `dir_path` is itself absolute, so the
leading `CONFIG_DIR` is discarded by `os.path.join`). -/
def walk_yaml_files (fs : FS) : List String :=
  (fs.walk.map (fun e =>
    ((e.2.filter (fun n => strEndsWith n ".yml" || strEndsWith n ".yaml")).map
      (fun n => pyJoin (pyJoin CONFIG_DIR e.1) n)))).flatten

/-- `compute_config_file_list()`: the walked `.yml`/`.yaml` files,
sorted, followed by the static paths. -/
def compute_config_file_list (fs : FS) : List String :=
  sortStrings (walk_yaml_files fs) ++ STATIC_CONFIG_FILES

/-- `DEFAULTS._as_dict()`: the recognized setting names with their
baseline values, in class-declaration order. -/
def DEFAULTS_as_dict : SettingsDict :=
  [("base_path", .vNone),
   ("login_cert", .vNone),
   ("login_cert_key", .vNone),
   ("password", .vNone),
   ("token", .vNone),
   ("url", .vStr "http://localhost:8200"),
   ("username", .vNone),
   ("verify", .vBool true),
   ("ca_bundle", .vNone),
   ("safe_write", .vBool false),
   ("follow", .vBool true),
   ("select_config", .vNone),
   ("configs", .vNone)]

/-- `read_config_file(file_path)`: `none` models both silent skips
(`FileNotFoundError`, debug-logged, and `IOError`, warning-logged);
a parsed file yields its dictionary (an empty YAML document already
became `{}` via `yaml.safe_load(f) or {}`). -/
def read_config_file (fs : FS) (file_path : String) : Option SettingsDict :=
  match fs.parsed (expanduser fs.home file_path) with
  | some (some config) => some config
  | some none => none
  | none => none

/-- `dash_to_underscores(config)`: rebuild the dict with `-` replaced
by `_` in every (top-level) key. -/
def dash_to_underscores (config : SettingsDict) : SettingsDict :=
  config.map (fun e => (dashToUnderscoreStr e.1, e.2))

/-- `load_bool(value)`: case-insensitive decoding of a boolean token;
anything else raises `VaultSettingsError` (note the message literal of
the source contains an unformatted `{}` placeholder). -/
def load_bool (value : String) : Except Err Bool :=
  let lower_value := strToLower value
  if ["true", "t", "1", "yes", "y"].contains lower_value then
    .ok true
  else if ["false", "f", "0", "no", "n"].contains lower_value then
    .ok false
  else
    .error (.settingsErr "Value \x7b\x7d could not be interpreted as boolean")

/-- The loop body of `build_config_from_env`, folding over the
environment items with accumulator `result`. -/
def build_config_from_env_aux (defaults_dict : SettingsDict) :
    List (String × String) → SettingsDict → Except Err SettingsDict
  | [], result => .ok result
  | (key, str_value) :: rest, result =>
    if strStartsWith key "VAULT_CLI_" then
      let key := strToLower (strDrop key 10)
      match dget defaults_dict key with
      | none => build_config_from_env_aux defaults_dict rest result
      | some (.vBool _) =>
        match load_bool str_value with
        | .ok b => build_config_from_env_aux defaults_dict rest (dset result key (.vBool b))
        | .error e => .error e
      | some _ => build_config_from_env_aux defaults_dict rest (dset result key (.vStr str_value))
    else
      build_config_from_env_aux defaults_dict rest result

/-- `build_config_from_env(environ)`: keep the variables prefixed with
`VAULT_CLI_` whose lowercased suffix is a recognized default name,
decoding booleans for boolean-typed defaults (`skip_len` is
`len("VAULT_CLI") + 1 = 10`). -/
def build_config_from_env (environ : List (String × String)) : Except Err SettingsDict :=
  build_config_from_env_aux DEFAULTS_as_dict environ []

mutual

/-- The per-key body of `recursive_update`: when `target.get(key)` and
the copied element are both dicts, recurse into them; otherwise the
newer element replaces the one in the target. -/
def recursive_update_value : Option Value → Value → Value
  | some (.vDict target_element), .vDict element_to_copy =>
    .vDict (recursive_update target_element element_to_copy)
  | _, element_to_copy => element_to_copy

/-- `recursive_update(target, to_copy)`: for each key of `to_copy` in
iteration order, store the (possibly recursively merged) element into
the target. -/
def recursive_update (target : SettingsDict) : SettingsDict → SettingsDict
  | [] => target
  | (key, element_to_copy) :: rest =>
    recursive_update
      (dset target key (recursive_update_value (dget target key) element_to_copy)) rest

end

/-- The loop of `build_config_from_files`, merging each readable file
into `values`; missing/unreadable files are skipped, never stopping
early. -/
def build_config_from_files_aux (fs : FS) :
    List String → SettingsDict → SettingsDict
  | [], values => values
  | potential_file :: rest, values =>
    match read_config_file fs potential_file with
    | none => build_config_from_files_aux fs rest values
    | some file_config =>
      build_config_from_files_aux fs rest
        (recursive_update values (dash_to_underscores file_config))

/-- `build_config_from_files(*config_files)`: start from the defaults
and fold every readable file in (the `lru_cache` is transparent for a
pure function and is not modelled). -/
def build_config_from_files (fs : FS) (config_files : List String) : SettingsDict :=
  build_config_from_files_aux fs config_files DEFAULTS_as_dict

/-- `read_file(path)`: `-` reads standard input; otherwise open the
(user-expanded) path, a missing file raising `FileNotFoundError`
(modelled as `Err.ioErr` carrying the un-expanded path argument);
content is stripped. -/
def read_file (fs : FS) (path : String) : Except Err String :=
  if path = "-" then
    .ok (strTrim fs.stdin)
  else
    match fs.raw (expanduser fs.home path) with
    | some content => .ok (strTrim content)
    | none => .error (.ioErr path)

/-- `replace_path_with_content(config, setting_name)`: pop
`<setting_name>_file`; when truthy, `assert isinstance(filename, str)`
and store the file's content under the plain name. -/
def replace_path_with_content (fs : FS) (config : SettingsDict)
    (setting_name : String) : Except Err SettingsDict :=
  let filename := dget config (setting_name ++ "_file")
  let config := dpop config (setting_name ++ "_file")
  if optTruthy filename then
    match filename with
    | some (.vStr s) =>
      match read_file fs s with
      | .ok content => .ok (dset config setting_name (.vStr content))
      | .error e => .error e
    | _ => .error .assertionErr
  else
    .ok config

/-- `read_all_files(config)`: resolve the `password_file` and
`token_file` indirections, in that order. -/
def read_all_files (fs : FS) (config : SettingsDict) : Except Err SettingsDict := do
  let config ← replace_path_with_content fs config "password"
  replace_path_with_content fs config "token"

/-- `select_config(values)`: pop `select_config` and `configs`; a falsy
selector returns the remaining settings unchanged; otherwise validate
shapes, look the profile up, and deep-merge it on top. -/
def select_config (values : SettingsDict) : Except Err SettingsDict :=
  let config_name := dget values "select_config"
  let values := dpop values "select_config"
  let configs := dget values "configs"
  let values := dpop values "configs"
  if optTruthy config_name then
    match config_name with
    | some name_v =>
      match name_v with
      | .vStr config_name_s =>
        (match configs with
         | some (.vDict configs_d) =>
           (match dget configs_d config_name_s with
            | some config_v =>
              (match config_v with
               | .vDict config => .ok (recursive_update values config)
               | _ => .error (.settingsErr
                   ("config with key " ++ config_name_s ++ " is not a dict: \x22"
                     ++ pyStr (.vDict configs_d) ++ "\x22")))
            | none => .error (.settingsErr
                ("Cannot find configuration \x22" ++ config_name_s ++ "\x22. Available: "
                  ++ joinComma (dkeys configs_d) ++ ")")))
         | _ => .error (.settingsErr
             ("configs is not a dict: \x22" ++ pyStrOpt configs ++ "\x22")))
      | _ => .error (.settingsErr
          ("select_config is not a string: \x22" ++ pyStr name_v ++ "\x22"))
    | none => .ok values
  else
    .ok values

/-- The first half of `get_vault_options(**kwargs)`: the settings after
folding in files, environment and explicit overrides, before profile
selection. -/
def aggregated (fs : FS) (environ : List (String × String))
    (kwargs : SettingsDict) : Except Err SettingsDict := do
  let config_files := compute_config_file_list fs
  let values := build_config_from_files fs config_files
  let env ← build_config_from_env environ
  .ok (dictUpdate (dictUpdate values env) kwargs)

/-- `get_vault_options(**kwargs)`: aggregate files, environment and
explicit overrides, apply the named-profile selector, then resolve the
secret file indirections. -/
def get_vault_options (fs : FS) (environ : List (String × String))
    (kwargs : SettingsDict) : Except Err SettingsDict := do
  let values ← aggregated fs environ kwargs
  let values ← select_config values
  read_all_files fs values

/-! ### Auxiliary definitions used only in theorem statements -/

/-- The profile block a successful run of `select_config` deep-merges
on top of the settings, when the selector, the `configs` mapping and
the selected profile are all well-shaped; `none` otherwise. -/
def selectedProfile (values : SettingsDict) : Option SettingsDict :=
  match dget values "select_config", dget values "configs" with
  | some (.vStr name), some (.vDict cs) =>
    if name != "" then
      match dget cs name with
      | some (.vDict p) => some p
      | _ => none
    else none
  | _, _ => none

/-- Whether the character list `p` occurs contiguously inside the
second list. -/
def subOccurs (p : List Char) : List Char → Bool
  | [] => p == []
  | c :: rest => ((c :: rest).take p.length == p) || subOccurs p rest

/-- Python `p in s` on strings: substring occurrence. -/
def strContains (s p : String) : Bool :=
  subOccurs p.data s.data

/-- A filesystem with no configuration directory, no readable files
and empty standard input. -/
def fsEmpty : FS :=
  { walk := [], parsed := fun _ => none, raw := fun _ => none, stdin := "", home := "/root" }

/-- A filesystem holding one YAML config file whose profile block uses
a hyphenated nested key. -/
def fsC8 : FS :=
  { fsEmpty with
    parsed := fun p =>
      if p = "/f.yml" then
        some (some [("configs", .vDict [("prod", .vDict [("base-path", .vStr "x")])])])
      else none }

/-- A filesystem holding one secret file `/tmp/secret` with trailing
newline content. -/
def fsSecret : FS :=
  { fsEmpty with raw := fun p => if p = "/tmp/secret" then some "filed\n" else none }

/-- A filesystem whose configuration directory holds `z.yaml` and
`a.yml` (in that walk order). -/
def fsLoc : FS :=
  { fsEmpty with walk := [("/etc/vault.d", ["z.yaml", "a.yml"])] }

/-- Explicit overrides whose selected profile block itself contains a
`configs` key. -/
def kwargsReintroduce : SettingsDict :=
  [("select_config", .vStr "p"),
   ("configs", .vDict [("p", .vDict [("configs", .vStr "x")])])]

/-! ### Lemmas about the dictionary operations -/

theorem dget_dset_self (d : SettingsDict) (k : String) (v : Value) :
    dget (dset d k v) k = some v := by
  induction d with
  | nil => simp [dget, dset]
  | cons e rest ih =>
    obtain ⟨k', v'⟩ := e
    by_cases h : k' = k <;> simp [dget, dset, h, ih]

theorem dget_dset_ne (d : SettingsDict) (k k' : String) (v : Value) (h : k ≠ k') :
    dget (dset d k v) k' = dget d k' := by
  induction d with
  | nil => simp [dget, dset, h]
  | cons e rest ih =>
    obtain ⟨k₁, v₁⟩ := e
    by_cases h₁ : k₁ = k
    · subst h₁
      simp [dget, dset, h]
    · simp only [dset, if_neg h₁]
      by_cases h₂ : k₁ = k' <;> simp [dget, h₂, ih]

theorem dget_dpop_self (d : SettingsDict) (k : String) :
    dget (dpop d k) k = none := by
  induction d with
  | nil => rfl
  | cons e rest ih =>
    obtain ⟨k', v'⟩ := e
    by_cases h : k' = k
    · subst h
      simpa [dpop, List.filter_cons] using ih
    · have hcond : ((k', v').1 != k) = true := by simp [h]
      simp only [dpop, List.filter_cons, hcond, if_pos]
      simpa [dget, h] using ih

theorem dget_dpop_ne (d : SettingsDict) (k k' : String) (h : k ≠ k') :
    dget (dpop d k) k' = dget d k' := by
  induction d with
  | nil => rfl
  | cons e rest ih =>
    obtain ⟨k₁, v₁⟩ := e
    by_cases h₁ : k₁ = k
    · subst h₁
      have h₂ : k₁ ≠ k' := h
      simp only [dpop, List.filter_cons, bne_self_eq_false, if_neg, Bool.false_eq_true,
        not_false_eq_true, dget, h₂, if_false]
      simpa [dpop] using ih
    · have hcond : ((k₁, v₁).1 != k) = true := by simp [h₁]
      simp only [dpop, List.filter_cons, hcond, if_pos, dget]
      by_cases h₂ : k₁ = k' <;> simp [h₂] <;> simpa [dpop] using ih

theorem mem_dkeys_of_dget (d : SettingsDict) (k : String) (v : Value)
    (h : dget d k = some v) : k ∈ dkeys d := by
  induction d with
  | nil => simp [dget] at h
  | cons e rest ih =>
    obtain ⟨k', v'⟩ := e
    by_cases h₁ : k' = k
    · simp [dkeys, h₁]
    · simp only [dget, if_neg h₁] at h
      simp [dkeys] at ih ⊢
      exact Or.inr (ih h)

theorem dget_eq_none_of_not_mem (d : SettingsDict) (k : String)
    (h : k ∉ dkeys d) : dget d k = none := by
  cases hd : dget d k with
  | none => rfl
  | some v => exact absurd (mem_dkeys_of_dget d k v hd) h

theorem dictUpdate_nil (t : SettingsDict) : dictUpdate t [] = t := rfl

theorem dictUpdate_cons (t : SettingsDict) (k : String) (v : Value) (o : SettingsDict) :
    dictUpdate t ((k, v) :: o) = dictUpdate (dset t k v) o := rfl

theorem dget_dictUpdate_not_mem (t o : SettingsDict) (k : String)
    (h : dget o k = none) : dget (dictUpdate t o) k = dget t k := by
  induction o generalizing t with
  | nil => rfl
  | cons e rest ih =>
    obtain ⟨k₁, v₁⟩ := e
    by_cases h₁ : k₁ = k
    · simp [dget, h₁] at h
    · rw [dictUpdate_cons, ih _ (by simpa [dget, h₁] using h), dget_dset_ne _ _ _ _ h₁]

theorem dget_dictUpdate_mem (t o : SettingsDict) (k : String) (v : Value)
    (hnodup : (dkeys o).Nodup) (h : dget o k = some v) :
    dget (dictUpdate t o) k = some v := by
  induction o generalizing t with
  | nil => simp [dget] at h
  | cons e rest ih =>
    obtain ⟨k₁, v₁⟩ := e
    simp only [dkeys, List.map_cons, List.nodup_cons] at hnodup
    by_cases h₁ : k₁ = k
    · subst h₁
      simp only [dget, if_pos rfl] at h
      cases h
      rw [dictUpdate_cons,
        dget_dictUpdate_not_mem _ _ _ (dget_eq_none_of_not_mem _ _ hnodup.1),
        dget_dset_self]
    · simp only [dget, if_neg h₁] at h
      rw [dictUpdate_cons, ih _ hnodup.2 h]

theorem recursive_update_nil (t : SettingsDict) : recursive_update t [] = t := rfl

theorem recursive_update_cons (t : SettingsDict) (k : String) (v : Value)
    (rest : SettingsDict) :
    recursive_update t ((k, v) :: rest)
      = recursive_update (dset t k (recursive_update_value (dget t k) v)) rest := rfl

theorem dget_recursive_update_not_mem (t c : SettingsDict) (k : String)
    (h : dget c k = none) : dget (recursive_update t c) k = dget t k := by
  induction c generalizing t with
  | nil => rfl
  | cons e rest ih =>
    obtain ⟨k₁, v₁⟩ := e
    by_cases h₁ : k₁ = k
    · simp [dget, h₁] at h
    · rw [recursive_update_cons, ih _ (by simpa [dget, h₁] using h),
        dget_dset_ne _ _ _ _ h₁]

theorem dget_recursive_update_mem (t c : SettingsDict) (k : String) (v : Value)
    (hnodup : (dkeys c).Nodup) (h : dget c k = some v) :
    dget (recursive_update t c) k = some (recursive_update_value (dget t k) v) := by
  induction c generalizing t with
  | nil => simp [dget] at h
  | cons e rest ih =>
    obtain ⟨k₁, v₁⟩ := e
    simp only [dkeys, List.map_cons, List.nodup_cons] at hnodup
    by_cases h₁ : k₁ = k
    · subst h₁
      simp only [dget, if_pos rfl] at h
      cases h
      rw [recursive_update_cons,
        dget_recursive_update_not_mem _ _ _ (dget_eq_none_of_not_mem _ _ hnodup.1),
        dget_dset_self]
    · simp only [dget, if_neg h₁] at h
      rw [recursive_update_cons, ih _ hnodup.2 h, dget_dset_ne _ _ _ _ h₁]

theorem dget_recursive_update_eq_none (t c : SettingsDict) (k : String) :
    dget (recursive_update t c) k = none ↔ (dget t k = none ∧ dget c k = none) := by
  induction c generalizing t with
  | nil => simp [recursive_update_nil, dget]
  | cons e rest ih =>
    obtain ⟨k₁, v₁⟩ := e
    rw [recursive_update_cons, ih]
    by_cases h₁ : k₁ = k
    · subst h₁
      simp [dget_dset_self, dget]
    · simp [dget_dset_ne _ _ _ _ h₁, dget, h₁]

/-! ### The insertion sort is a sort -/

theorem charsLe_total : ∀ as bs : List Char, charsLe as bs = true ∨ charsLe bs as = true
  | [], _ => Or.inl rfl
  | _ :: _, [] => Or.inr rfl
  | a :: as, b :: bs => by
    rcases Nat.lt_trichotomy a.toNat b.toNat with h | h | h
    · left
      simp [charsLe, h]
    · have hba : ¬ b.toNat < a.toNat := by omega
      have hab : ¬ a.toNat < b.toNat := by omega
      rcases charsLe_total as bs with ih | ih
      · left
        simpa [charsLe, hab, hba] using ih
      · right
        simpa [charsLe, hab, hba] using ih
    · right
      simp [charsLe, h]

theorem charsLe_trans : ∀ as bs cs : List Char,
    charsLe as bs = true → charsLe bs cs = true → charsLe as cs = true
  | [], _, _, _, _ => rfl
  | a :: as, [], _, h1, _ => by simp [charsLe] at h1
  | _ :: _, _ :: _, [], _, h2 => by simp [charsLe] at h2
  | a :: as, b :: bs, c :: cs, h1, h2 => by
    rcases Nat.lt_trichotomy a.toNat b.toNat with hab | hab | hab <;>
      rcases Nat.lt_trichotomy b.toNat c.toNat with hbc | hbc | hbc <;>
      simp only [charsLe] at h1 h2 ⊢ <;>
      first
        | (simp only [if_pos (by omega : a.toNat < c.toNat)])
        | (exfalso
           simp only [if_neg (by omega : ¬ a.toNat < b.toNat),
             if_pos (by omega : b.toNat < a.toNat)] at h1
           exact Bool.noConfusion h1)
        | (exfalso
           simp only [if_neg (by omega : ¬ b.toNat < c.toNat),
             if_pos (by omega : c.toNat < b.toNat)] at h2
           exact Bool.noConfusion h2)
        | (simp only [if_neg (by omega : ¬ a.toNat < c.toNat),
             if_neg (by omega : ¬ c.toNat < a.toNat)]
           simp only [if_neg (by omega : ¬ a.toNat < b.toNat),
             if_neg (by omega : ¬ b.toNat < a.toNat)] at h1
           simp only [if_neg (by omega : ¬ b.toNat < c.toNat),
             if_neg (by omega : ¬ c.toNat < b.toNat)] at h2
           exact charsLe_trans as bs cs h1 h2)

theorem strLe_total (a b : String) : strLe a b = true ∨ strLe b a = true :=
  charsLe_total a.data b.data

theorem strLe_trans {a b c : String} (h1 : strLe a b = true) (h2 : strLe b c = true) :
    strLe a c = true :=
  charsLe_trans a.data b.data c.data h1 h2

theorem insertSorted_perm (x : String) (l : List String) :
    (insertSorted x l).Perm (x :: l) := by
  induction l with
  | nil => exact List.Perm.refl _
  | cons y ys ih =>
    by_cases h : strLe x y
    · simp [insertSorted, h]
    · simp only [insertSorted, if_neg h]
      exact (List.Perm.cons y ih).trans (List.Perm.swap x y ys)

theorem insertSorted_pairwise (x : String) (l : List String)
    (h : l.Pairwise (fun a b => strLe a b = true)) :
    (insertSorted x l).Pairwise (fun a b => strLe a b = true) := by
  induction l with
  | nil => simp [insertSorted]
  | cons y ys ih =>
    rcases List.pairwise_cons.mp h with ⟨hy, hys⟩
    by_cases hxy : strLe x y
    · simp only [insertSorted, if_pos hxy]
      refine List.pairwise_cons.mpr ⟨?_, h⟩
      intro z hz
      rcases List.mem_cons.mp hz with rfl | hz
      · exact hxy
      · exact strLe_trans hxy (hy _ hz)
    · have hyx : strLe y x = true := (strLe_total x y).resolve_left hxy
      simp only [insertSorted, if_neg hxy]
      refine List.pairwise_cons.mpr ⟨?_, ih hys⟩
      intro z hz
      rcases List.mem_cons.mp ((insertSorted_perm x ys).mem_iff.mp hz) with rfl | hz'
      · exact hyx
      · exact hy _ hz'

theorem sortStrings_perm (l : List String) : (sortStrings l).Perm l := by
  induction l with
  | nil => exact List.Perm.refl _
  | cons x xs ih =>
    exact (insertSorted_perm x (sortStrings xs)).trans (List.Perm.cons x ih)

theorem sortStrings_pairwise (l : List String) :
    (sortStrings l).Pairwise (fun a b => strLe a b = true) := by
  induction l with
  | nil => simp [sortStrings]
  | cons x xs ih => exact insertSorted_pairwise x (sortStrings xs) ih

/-! ### `Except` bind inversion -/

theorem except_bind_ok {α β : Type} (m : Except Err α) (f : α → Except Err β)
    (b : β) : (m >>= f) = .ok b ↔ ∃ a, m = .ok a ∧ f a = .ok b := by
  cases m with
  | ok a =>
    constructor
    · intro h
      exact ⟨a, rfl, h⟩
    · rintro ⟨a', ha', hf⟩
      cases ha'
      exact hf
  | error e =>
    constructor
    · intro h
      exact absurd h (by simp [Bind.bind, Except.bind])
    · rintro ⟨a', ha', hf⟩
      cases ha'

/-! ### Inversion lemmas for the pipeline stages -/

theorem self_ne_append_file (n : String) : n ≠ n ++ "_file" := by
  intro h
  have hd : n.data = n.data ++ "_file".data := congrArg String.data h
  have hl := congrArg List.length hd
  simp only [List.length_append] at hl
  simp at hl

theorem read_all_files_eq (fs : FS) (cfg : SettingsDict) :
    read_all_files fs cfg
      = replace_path_with_content fs cfg "password"
          >>= (fun c => replace_path_with_content fs c "token") := rfl

/-- Successful runs of `replace_path_with_content` either leave the
popped dictionary unchanged (falsy or absent `<name>_file`) or set the
plain name to the content read from the named string. -/
theorem rpwc_ok_inv (fs : FS) (cfg : SettingsDict) (n : String) (out : SettingsDict)
    (h : replace_path_with_content fs cfg n = .ok out) :
    out = dpop cfg (n ++ "_file") ∨
    ∃ s content, dget cfg (n ++ "_file") = some (.vStr s) ∧ (s != "") = true ∧
      read_file fs s = .ok content ∧
      out = dset (dpop cfg (n ++ "_file")) n (.vStr content) := by
  cases hf : dget cfg (n ++ "_file") with
  | none =>
    simp [replace_path_with_content, hf, optTruthy] at h
    exact Or.inl h.symm
  | some v =>
    cases v with
    | vNone =>
      simp [replace_path_with_content, hf, optTruthy, truthy] at h
      exact Or.inl h.symm
    | vBool b =>
      cases b with
      | false =>
        simp [replace_path_with_content, hf, optTruthy, truthy] at h
        exact Or.inl h.symm
      | true =>
        simp [replace_path_with_content, hf, optTruthy, truthy] at h
    | vDict entries =>
      cases entries with
      | nil =>
        simp [replace_path_with_content, hf, optTruthy, truthy] at h
        exact Or.inl h.symm
      | cons e es =>
        simp [replace_path_with_content, hf, optTruthy, truthy] at h
    | vStr s =>
      by_cases hs : s = ""
      · subst hs
        simp [replace_path_with_content, hf, optTruthy, truthy] at h
        exact Or.inl h.symm
      · cases hr : read_file fs s with
        | ok content =>
          simp [replace_path_with_content, hf, optTruthy, truthy, hs, hr] at h
          exact Or.inr ⟨s, content, rfl, by simp [hs], hr, h.symm⟩
        | error e =>
          simp [replace_path_with_content, hf, optTruthy, truthy, hs, hr] at h

/-- A successful `replace_path_with_content` leaves no `<name>_file`
key behind. -/
theorem rpwc_ok_strips (fs : FS) (cfg : SettingsDict) (n : String) (out : SettingsDict)
    (h : replace_path_with_content fs cfg n = .ok out) :
    dget out (n ++ "_file") = none := by
  rcases rpwc_ok_inv fs cfg n out h with rfl | ⟨s, content, _, _, _, rfl⟩
  · exact dget_dpop_self _ _
  · rw [dget_dset_ne _ _ _ _ (self_ne_append_file n), dget_dpop_self]

/-- `replace_path_with_content` never introduces a key other than the
plain setting name. -/
theorem rpwc_preserves_none (fs : FS) (cfg : SettingsDict) (n : String)
    (out : SettingsDict) (s : String) (hs : s ≠ n)
    (h : replace_path_with_content fs cfg n = .ok out) (hn : dget cfg s = none) :
    dget out s = none := by
  have hpop : dget (dpop cfg (n ++ "_file")) s = none := by
    by_cases he : (n ++ "_file") = s
    · rw [← he, dget_dpop_self]
    · rw [dget_dpop_ne _ _ _ he, hn]
  rcases rpwc_ok_inv fs cfg n out h with rfl | ⟨s', content, _, _, _, rfl⟩
  · exact hpop
  · rw [dget_dset_ne _ _ _ _ (fun he => hs he.symm), hpop]

/-- What the successful runs of `select_config` look like: either the
selector was falsy and both keys were merely popped, or a well-shaped
profile was found and deep-merged on top. -/
theorem select_config_ok_inv (values out : SettingsDict)
    (h : select_config values = .ok out) :
    out = dpop (dpop values "select_config") "configs" ∨
    ∃ name cs p, dget values "select_config" = some (.vStr name) ∧ (name != "") = true ∧
      dget values "configs" = some (.vDict cs) ∧ dget cs name = some (.vDict p) ∧
      out = recursive_update (dpop (dpop values "select_config") "configs") p := by
  have hcfg : dget (dpop values "select_config") "configs" = dget values "configs" :=
    dget_dpop_ne _ _ _ (by decide)
  cases hn : dget values "select_config" with
  | none =>
    simp [select_config, hn, optTruthy] at h
    exact Or.inl h.symm
  | some v =>
    cases v with
    | vNone =>
      simp [select_config, hn, optTruthy, truthy] at h
      exact Or.inl h.symm
    | vBool b =>
      cases b with
      | false =>
        simp [select_config, hn, optTruthy, truthy] at h
        exact Or.inl h.symm
      | true =>
        simp [select_config, hn, optTruthy, truthy] at h
    | vDict entries =>
      cases entries with
      | nil =>
        simp [select_config, hn, optTruthy, truthy] at h
        exact Or.inl h.symm
      | cons e es =>
        simp [select_config, hn, optTruthy, truthy] at h
    | vStr name =>
      by_cases hname : name = ""
      · subst hname
        simp [select_config, hn, optTruthy, truthy] at h
        exact Or.inl h.symm
      · cases hc : dget values "configs" with
        | none =>
          simp [select_config, hn, hcfg, hc, optTruthy, truthy, hname] at h
        | some cv =>
          cases cv with
          | vDict cs =>
            cases hp : dget cs name with
            | none =>
              simp [select_config, hn, hcfg, hc, hp, optTruthy, truthy, hname] at h
            | some pv =>
              cases pv with
              | vDict p =>
                simp [select_config, hn, hcfg, hc, hp, optTruthy, truthy, hname] at h
                exact Or.inr ⟨name, cs, p, rfl, by simp [hname], rfl, hp, h.symm⟩
              | vNone =>
                simp [select_config, hn, hcfg, hc, hp, optTruthy, truthy, hname] at h
              | vBool b =>
                simp [select_config, hn, hcfg, hc, hp, optTruthy, truthy, hname] at h
              | vStr s =>
                simp [select_config, hn, hcfg, hc, hp, optTruthy, truthy, hname] at h
          | vNone =>
            simp [select_config, hn, hcfg, hc, optTruthy, truthy, hname] at h
          | vBool b =>
            simp [select_config, hn, hcfg, hc, optTruthy, truthy, hname] at h
          | vStr s =>
            simp [select_config, hn, hcfg, hc, optTruthy, truthy, hname] at h

/-! ### Positive-direction evaluation lemmas -/

theorem recursive_update_value_of_not_dict (x : Option Value) (cv : Value)
    (h : cv.isDict = false) : recursive_update_value x cv = cv := by
  cases cv with
  | vDict d => simp [Value.isDict] at h
  | vNone => cases x with
    | none => rfl
    | some xv => cases xv <;> rfl
  | vBool b => cases x with
    | none => rfl
    | some xv => cases xv <;> rfl
  | vStr s => cases x with
    | none => rfl
    | some xv => cases xv <;> rfl

theorem recursive_update_value_of_target_not_dict (x : Option Value) (cv : Value)
    (h : ∀ tv, x = some tv → tv.isDict = false) : recursive_update_value x cv = cv := by
  cases x with
  | none => cases cv <;> rfl
  | some tv =>
    cases tv with
    | vDict td =>
      have := h _ rfl
      simp [Value.isDict] at this
    | vNone => cases cv <;> rfl
    | vBool b => cases cv <;> rfl
    | vStr s => cases cv <;> rfl

theorem read_file_stdin (fs : FS) : read_file fs "-" = .ok (strTrim fs.stdin) := rfl

theorem read_file_ok (fs : FS) (p c : String) (hp : p ≠ "-")
    (h : fs.raw (expanduser fs.home p) = some c) :
    read_file fs p = .ok (strTrim c) := by
  simp [read_file, hp, h]

theorem read_file_missing (fs : FS) (p : String) (hp : p ≠ "-")
    (h : fs.raw (expanduser fs.home p) = none) :
    read_file fs p = .error (.ioErr p) := by
  simp [read_file, hp, h]

theorem read_file_error_inv (fs : FS) (p : String) (e : Err)
    (h : read_file fs p = .error e) : e = .ioErr p := by
  by_cases hp : p = "-"
  · subst hp
    simp [read_file] at h
  · cases hr : fs.raw (expanduser fs.home p) with
    | some c => simp [read_file, hp, hr] at h
    | none =>
      simp [read_file, hp, hr] at h
      exact h.symm

theorem rpwc_ok_read (fs : FS) (config : SettingsDict) (n pth content : String)
    (hf : dget config (n ++ "_file") = some (.vStr pth)) (hpth : pth ≠ "")
    (hr : read_file fs pth = .ok content) :
    replace_path_with_content fs config n
      = .ok (dset (dpop config (n ++ "_file")) n (.vStr content)) := by
  simp [replace_path_with_content, hf, optTruthy, truthy, hpth, hr]

theorem rpwc_error_read (fs : FS) (config : SettingsDict) (n pth : String) (e : Err)
    (hf : dget config (n ++ "_file") = some (.vStr pth)) (hpth : pth ≠ "")
    (hr : read_file fs pth = .error e) :
    replace_path_with_content fs config n = .error e := by
  simp [replace_path_with_content, hf, optTruthy, truthy, hpth, hr]

theorem rpwc_skip (fs : FS) (config : SettingsDict) (n : String)
    (hf : optTruthy (dget config (n ++ "_file")) = false) :
    replace_path_with_content fs config n = .ok (dpop config (n ++ "_file")) := by
  simp [replace_path_with_content, hf]

theorem select_config_ok_profile (values : SettingsDict) (name : String)
    (cs p : SettingsDict)
    (hn : dget values "select_config" = some (.vStr name)) (hname : name ≠ "")
    (hc : dget values "configs" = some (.vDict cs))
    (hp : dget cs name = some (.vDict p)) :
    select_config values
      = .ok (recursive_update (dpop (dpop values "select_config") "configs") p) := by
  have hcfg : dget (dpop values "select_config") "configs" = dget values "configs" :=
    dget_dpop_ne _ _ _ (by decide)
  simp [select_config, hn, hcfg, hc, hp, optTruthy, truthy, hname]

theorem select_config_falsy (values : SettingsDict)
    (h : optTruthy (dget values "select_config") = false) :
    select_config values = .ok (dpop (dpop values "select_config") "configs") := by
  simp [select_config, h]

theorem build_config_from_files_aux_append (fs : FS) (l1 l2 : List String)
    (v : SettingsDict) :
    build_config_from_files_aux fs (l1 ++ l2) v
      = build_config_from_files_aux fs l2 (build_config_from_files_aux fs l1 v) := by
  induction l1 generalizing v with
  | nil => rfl
  | cons f rest ih =>
    cases hr : read_config_file fs f with
    | none => simp [build_config_from_files_aux, hr, ih]
    | some fc => simp [build_config_from_files_aux, hr, ih]

/-! ### Claim theorems -/

/-- C3: `recursive_update(target, overrides)` merges so that, for each
key of the overrides, a mapping-vs-mapping pair recurses and any other
pair is replaced entirely by the override value (sequences, scalars
and one-sided mappings included), while keys present only in the
target keep their original value. -/
theorem c3_recursive_update_semantics (target to_copy : SettingsDict) (k : String)
    (hnodup : (dkeys to_copy).Nodup) :
    (dget to_copy k = none → dget (recursive_update target to_copy) k = dget target k) ∧
    (∀ td cd, dget target k = some (.vDict td) → dget to_copy k = some (.vDict cd) →
      dget (recursive_update target to_copy) k = some (.vDict (recursive_update td cd))) ∧
    (∀ v, dget to_copy k = some v → v.isDict = false →
      dget (recursive_update target to_copy) k = some v) ∧
    (∀ v, dget to_copy k = some v → (∀ tv, dget target k = some tv → tv.isDict = false) →
      dget (recursive_update target to_copy) k = some v) := by
  refine ⟨fun h => dget_recursive_update_not_mem _ _ _ h, ?_, ?_, ?_⟩
  · intro td cd ht hc
    rw [dget_recursive_update_mem _ _ _ _ hnodup hc, ht]
    rfl
  · intro v hc hv
    rw [dget_recursive_update_mem _ _ _ _ hnodup hc,
      recursive_update_value_of_not_dict _ _ hv]
  · intro v hc ht
    rw [dget_recursive_update_mem _ _ _ _ hnodup hc,
      recursive_update_value_of_target_not_dict _ _ ht]

/-- Witness for C3 at concrete dictionaries: nested mappings merge
recursively, a scalar replaces, and an untouched key survives. -/
theorem c3_witness :
    dget (recursive_update [("a", .vStr "1"), ("b", .vDict [("x", .vNone)])]
        [("b", .vDict [("y", .vBool true)]), ("c", .vStr "2")]) "b"
      = some (.vDict [("x", .vNone), ("y", .vBool true)]) :=
  (c3_recursive_update_semantics [("a", .vStr "1"), ("b", .vDict [("x", .vNone)])]
      [("b", .vDict [("y", .vBool true)]), ("c", .vStr "2")] "b"
      (by decide)).2.1 [("x", .vNone)] [("y", .vBool true)] rfl rfl

/-- C4: boolean decoding is case-insensitive over the documented token
sets, and any other string raises `VaultSettingsError`; but, contrary
to the claim, the message is the literal `Value {} could not be
interpreted as boolean` (the `str.format` call is missing), which does
not name the offending value. -/
theorem c4_load_bool (s : String) :
    ((["true", "t", "1", "yes", "y"].contains (strToLower s)) = true →
      load_bool s = .ok true) ∧
    ((["true", "t", "1", "yes", "y"].contains (strToLower s)) = false →
     (["false", "f", "0", "no", "n"].contains (strToLower s)) = true →
      load_bool s = .ok false) ∧
    ((["true", "t", "1", "yes", "y"].contains (strToLower s)) = false →
     (["false", "f", "0", "no", "n"].contains (strToLower s)) = false →
      load_bool s = .error (.settingsErr "Value \x7b\x7d could not be interpreted as boolean")) ∧
    strContains "Value \x7b\x7d could not be interpreted as boolean" "maybe" = false := by
  refine ⟨?_, ?_, ?_, by decide⟩
  · intro h
    simp only [load_bool]
    rw [h]
    simp
  · intro h1 h2
    simp only [load_bool]
    rw [h1, h2]
    simp
  · intro h1 h2
    simp only [load_bool]
    rw [h1, h2]
    simp

/-- Witness for C4: the documented examples, including the failing
input `maybe` whose error message does not mention it. -/
theorem c4_witness :
    load_bool "YES" = .ok true ∧ load_bool "0" = .ok false ∧
    load_bool "maybe"
      = .error (.settingsErr "Value \x7b\x7d could not be interpreted as boolean") :=
  ⟨(c4_load_bool "YES").1 (by decide),
   (c4_load_bool "0").2.1 (by decide) (by decide),
   (c4_load_bool "maybe").2.2.1 (by decide) (by decide)⟩

/-- C9: a non-empty string `select_config` with no `configs` key at
all fails with the non-mapping `configs` validation error (the popped
default `None` is not a dict), rather than returning unchanged or
reporting a missing profile. -/
theorem c9_missing_configs (values : SettingsDict) (s : String)
    (h1 : dget values "select_config" = some (.vStr s)) (h2 : s ≠ "")
    (h3 : dget values "configs" = none) :
    select_config values = .error (.settingsErr "configs is not a dict: \x22None\x22") := by
  have hcfg : dget (dpop values "select_config") "configs" = dget values "configs" :=
    dget_dpop_ne _ _ _ (by decide)
  simp [select_config, h1, hcfg, h3, optTruthy, truthy, h2, pyStrOpt]

/-- Witness for C9 at a concrete dictionary. -/
theorem c9_witness :
    select_config [("select_config", .vStr "prod")]
      = .error (.settingsErr "configs is not a dict: \x22None\x22") :=
  c9_missing_configs [("select_config", .vStr "prod")] "prod" rfl (by decide) rfl

/-- C10: a truthy non-string `<name>_file` value makes the secret
resolver fail with a Python `assert` failure (not a settings error);
when every present `<name>_file` value is a string or falsy, that
assertion branch is unreachable. -/
theorem c10_assert_non_string (fs : FS) (config : SettingsDict) :
    (∀ name v, (name = "password" ∨ name = "token") →
      dget config (name ++ "_file") = some v → truthy v = true → v.isStr = false →
      replace_path_with_content fs config name = .error .assertionErr) ∧
    (∀ v, dget config "password_file" = some v → truthy v = true → v.isStr = false →
      read_all_files fs config = .error .assertionErr) ∧
    (∀ name, (∀ v, dget config (name ++ "_file") = some v → v.isStr = true ∨ truthy v = false) →
      replace_path_with_content fs config name ≠ .error .assertionErr) := by
  have key : ∀ (n : String) (v : Value), dget config (n ++ "_file") = some v →
      truthy v = true → v.isStr = false →
      replace_path_with_content fs config n = .error .assertionErr := by
    intro n v hf ht hs
    cases v with
    | vNone => simp [truthy] at ht
    | vStr s => simp [Value.isStr] at hs
    | vBool b =>
      cases b with
      | false => simp [truthy] at ht
      | true => simp [replace_path_with_content, hf, optTruthy, truthy]
    | vDict entries =>
      cases entries with
      | nil => simp [truthy] at ht
      | cons e es => simp [replace_path_with_content, hf, optTruthy, truthy]
  refine ⟨fun name v _ => key name v, ?_, ?_⟩
  · intro v hf ht hs
    rw [read_all_files_eq, key "password" v hf ht hs]
    rfl
  · intro name hv h
    cases hf : dget config (name ++ "_file") with
    | none =>
      rw [rpwc_skip fs config name (by simp [optTruthy, hf])] at h
      cases h
    | some v =>
      cases hvv : truthy v with
      | false =>
        rw [rpwc_skip fs config name (by simp [optTruthy, hf, hvv])] at h
        cases h
      | true =>
        rcases hv v hf with hstr | hfalsy
        · cases v with
          | vStr s =>
            cases hr : read_file fs s with
            | ok content =>
              rw [rpwc_ok_read fs config name s content hf
                (by simpa [truthy] using hvv) hr] at h
              cases h
            | error e =>
              rw [rpwc_error_read fs config name s e hf
                (by simpa [truthy] using hvv) hr] at h
              injection h with he
              subst he
              exact absurd (read_file_error_inv fs s _ hr) (by simp)
          | vNone => simp [Value.isStr] at hstr
          | vBool b => simp [Value.isStr] at hstr
          | vDict d => simp [Value.isStr] at hstr
        · rw [hvv] at hfalsy
          cases hfalsy

/-- Witness for C10: a dict-valued `password_file` coming from a
config source aborts `read_all_files` with the assertion failure. -/
theorem c10_witness :
    read_all_files fsEmpty [("password_file", .vDict [("a", .vNone)])]
      = .error .assertionErr :=
  (c10_assert_non_string fsEmpty [("password_file", .vDict [("a", .vNone)])]).2.1
    (.vDict [("a", .vNone)]) rfl rfl rfl

/-- C5: a non-empty string `<name>_file` for `password`/`token` is
popped and resolved: `-` reads trimmed standard input, an existing
file reads its trimmed content into the plain name (overwriting any
direct value), and a missing file propagates the raw I/O error
unwrapped. -/
theorem c5_secret_indirection (fs : FS) (config : SettingsDict) (name p : String)
    (hname : name = "password" ∨ name = "token")
    (hfile : dget config (name ++ "_file") = some (.vStr p)) (hp : p ≠ "") :
    (p = "-" → replace_path_with_content fs config name
        = .ok (dset (dpop config (name ++ "_file")) name (.vStr (strTrim fs.stdin)))) ∧
    (∀ c, p ≠ "-" → fs.raw (expanduser fs.home p) = some c →
        replace_path_with_content fs config name
          = .ok (dset (dpop config (name ++ "_file")) name (.vStr (strTrim c))) ∧
        dget (dset (dpop config (name ++ "_file")) name (.vStr (strTrim c))) name
          = some (.vStr (strTrim c)) ∧
        dget (dset (dpop config (name ++ "_file")) name (.vStr (strTrim c)))
          (name ++ "_file") = none) ∧
    (p ≠ "-" → fs.raw (expanduser fs.home p) = none →
        replace_path_with_content fs config name = .error (.ioErr p)) := by
  refine ⟨?_, ?_, ?_⟩
  · intro hd
    subst hd
    exact rpwc_ok_read fs config name "-" _ hfile hp (read_file_stdin fs)
  · intro c hd hraw
    refine ⟨rpwc_ok_read fs config name p _ hfile hp (read_file_ok fs p c hd hraw),
      dget_dset_self _ _ _, ?_⟩
    rw [dget_dset_ne _ _ _ _ (self_ne_append_file name), dget_dpop_self]
  · intro hd hraw
    exact rpwc_error_read fs config name p _ hfile hp (read_file_missing fs p hd hraw)

/-- Witness for C5: the spec's example, with the direct value
`plain` shadowed by the trimmed file content `filed`. -/
theorem c5_witness :
    replace_path_with_content fsSecret
        [("password", .vStr "plain"), ("password_file", .vStr "/tmp/secret")] "password"
      = .ok (dset (dpop [("password", .vStr "plain"), ("password_file", .vStr "/tmp/secret")]
          "password_file") "password" (.vStr (strTrim "filed\n"))) ∧
    dget (dset (dpop [("password", .vStr "plain"), ("password_file", .vStr "/tmp/secret")]
          "password_file") "password" (.vStr (strTrim "filed\n"))) "password"
      = some (.vStr (strTrim "filed\n")) ∧
    dget (dset (dpop [("password", .vStr "plain"), ("password_file", .vStr "/tmp/secret")]
          "password_file") "password" (.vStr (strTrim "filed\n"))) "password_file"
      = none :=
  (c5_secret_indirection fsSecret
      [("password", .vStr "plain"), ("password_file", .vStr "/tmp/secret")]
      "password" "/tmp/secret" (Or.inl rfl) rfl (by decide)).2.1
    "filed\n" (by decide) rfl

/-- C6: the named-profile selector's validation: non-string selector,
non-mapping `configs`, missing profile (listing the available names),
and non-mapping profile value each fail with the corresponding
`VaultSettingsError`; a falsy/absent selector returns the settings
with `select_config` and `configs` removed. -/
theorem c6_selector_validation (values : SettingsDict) :
    (∀ v, dget values "select_config" = some v → truthy v = true → v.isStr = false →
      select_config values = .error (.settingsErr
        ("select_config is not a string: \x22" ++ pyStr v ++ "\x22"))) ∧
    (∀ s, dget values "select_config" = some (.vStr s) → s ≠ "" →
      (∀ cv, dget values "configs" = some cv → cv.isDict = false) →
      select_config values = .error (.settingsErr
        ("configs is not a dict: \x22" ++ pyStrOpt (dget values "configs") ++ "\x22"))) ∧
    (∀ s cs, dget values "select_config" = some (.vStr s) → s ≠ "" →
      dget values "configs" = some (.vDict cs) → dget cs s = none →
      select_config values = .error (.settingsErr
        ("Cannot find configuration \x22" ++ s ++ "\x22. Available: "
          ++ joinComma (dkeys cs) ++ ")"))) ∧
    (∀ s cs v, dget values "select_config" = some (.vStr s) → s ≠ "" →
      dget values "configs" = some (.vDict cs) → dget cs s = some v → v.isDict = false →
      select_config values = .error (.settingsErr
        ("config with key " ++ s ++ " is not a dict: \x22"
          ++ pyStr (.vDict cs) ++ "\x22"))) ∧
    (optTruthy (dget values "select_config") = false →
      select_config values = .ok (dpop (dpop values "select_config") "configs")) := by
  have hcfg : dget (dpop values "select_config") "configs" = dget values "configs" :=
    dget_dpop_ne _ _ _ (by decide)
  refine ⟨?_, ?_, ?_, ?_, select_config_falsy values⟩
  · intro v hn ht hs
    cases v with
    | vNone => simp [truthy] at ht
    | vStr s => simp [Value.isStr] at hs
    | vBool b =>
      cases b with
      | false => simp [truthy] at ht
      | true => simp [select_config, hn, optTruthy, truthy]
    | vDict entries =>
      cases entries with
      | nil => simp [truthy] at ht
      | cons e es => simp [select_config, hn, optTruthy, truthy, pyStr]
  · intro s hn hs hcv
    cases hc : dget values "configs" with
    | none => simp [select_config, hn, hcfg, hc, optTruthy, truthy, hs, pyStrOpt]
    | some cv =>
      cases cv with
      | vDict cs =>
        have := hcv _ hc
        simp [Value.isDict] at this
      | vNone => simp [select_config, hn, hcfg, hc, optTruthy, truthy, hs, pyStrOpt, pyStr]
      | vBool b => simp [select_config, hn, hcfg, hc, optTruthy, truthy, hs, pyStrOpt, pyStr]
      | vStr str => simp [select_config, hn, hcfg, hc, optTruthy, truthy, hs, pyStrOpt, pyStr]
  · intro s cs hn hs hc hmiss
    simp [select_config, hn, hcfg, hc, hmiss, optTruthy, truthy, hs]
  · intro s cs v hn hs hc hp hv
    cases v with
    | vDict d => simp [Value.isDict] at hv
    | vNone => simp [select_config, hn, hcfg, hc, hp, optTruthy, truthy, hs, pyStr]
    | vBool b => simp [select_config, hn, hcfg, hc, hp, optTruthy, truthy, hs, pyStr]
    | vStr str => simp [select_config, hn, hcfg, hc, hp, optTruthy, truthy, hs, pyStr]

/-- Witness for C6: a missing profile lists the available profile
names (with the code's stray closing parenthesis). -/
theorem c6_witness :
    select_config [("select_config", .vStr "q"),
        ("configs", .vDict [("a", .vDict []), ("b", .vNone)])]
      = .error (.settingsErr "Cannot find configuration \x22q\x22. Available: a, b)") :=
  (c6_selector_validation [("select_config", .vStr "q"),
      ("configs", .vDict [("a", .vDict []), ("b", .vNone)])]).2.2.1
    "q" [("a", .vDict []), ("b", .vNone)] rfl (by decide) rfl rfl

/-- Generic form of the C8 key-normalization fact: mapping a function
over the keys of a dictionary relocates each binding to the renamed
key, provided the renamed keys do not collide. -/
theorem dget_map_keys (f : String → String) (config : SettingsDict) (k : String)
    (v : Value) (hnodup : (config.map (fun e => f e.1)).Nodup)
    (h : dget config k = some v) :
    dget (config.map (fun e => (f e.1, e.2))) (f k) = some v := by
  induction config with
  | nil => simp [dget] at h
  | cons e rest ih =>
    obtain ⟨k₁, v₁⟩ := e
    rw [List.map_cons] at hnodup ⊢
    rcases List.nodup_cons.mp hnodup with ⟨hhead, htail⟩
    by_cases h₁ : k₁ = k
    · subst h₁
      simp only [dget, if_pos rfl] at h ⊢
      exact h
    · simp only [dget, if_neg h₁] at h
      have hk : k ∈ dkeys rest := mem_dkeys_of_dget rest k v h
      have hfk : f k ∈ rest.map (fun e => f e.1) := by
        simp only [dkeys] at hk
        rcases List.mem_map.mp hk with ⟨e, he, hek⟩
        exact List.mem_map.mpr ⟨e, he, by rw [hek]⟩
      have hne : f k₁ ≠ f k := fun he => hhead (he ▸ hfk)
      simp only [dget, if_neg hne]
      exact ih htail h

/-- C8 fails as stated: a profile block loaded from a config file keeps
its hyphenated nested key `base-path` verbatim —
`dash_to_underscores` rewrites only top-level keys. -/
theorem c8_counterexample :
    dget (build_config_from_files fsC8 ["/f.yml"]) "configs"
      = some (.vDict [("prod", .vDict [("base-path", .vStr "x")])]) ∧
    dash_to_underscores [("configs", .vDict [("prod", .vDict [("base-path", .vStr "x")])])]
      = [("configs", .vDict [("prod", .vDict [("base-path", .vStr "x")])])] :=
  ⟨rfl, rfl⟩

/-- C8 (amended): every top-level key of a loaded mapping has hyphens
replaced by underscores, carrying its value (nested mappings included)
unchanged; keys inside nested mappings are not rewritten. -/
theorem c8_dash_to_underscores (config : SettingsDict) (k : String) (v : Value)
    (hnodup : (dkeys (dash_to_underscores config)).Nodup)
    (h : dget config k = some v) :
    dget (dash_to_underscores config) (dashToUnderscoreStr k) = some v := by
  have hrw : dash_to_underscores config
      = config.map (fun e => (dashToUnderscoreStr e.1, e.2)) := rfl
  rw [hrw]
  refine dget_map_keys dashToUnderscoreStr config k v ?_ h
  have : dkeys (dash_to_underscores config)
      = config.map (fun e => dashToUnderscoreStr e.1) := by
    simp [dkeys, dash_to_underscores, List.map_map, Function.comp]
  rwa [this] at hnodup

/-- Witness for C8 (amended): `base-path` at top level becomes
`base_path`. -/
theorem c8_witness :
    dget (dash_to_underscores [("base-path", .vStr "y")]) "base_path"
      = some (.vStr "y") :=
  c8_dash_to_underscores [("base-path", .vStr "y")] "base-path" (.vStr "y")
    (by decide) rfl

/-- C7: the locator output is a lexicographically sorted permutation
of exactly the `.yml`/`.yaml` files under the configuration directory
(duplicates kept), followed by the three static paths in their fixed
order, and a nonexistent configuration directory contributes nothing. -/
theorem c7_locator (fs : FS) :
    (∃ l, compute_config_file_list fs = l ++ STATIC_CONFIG_FILES ∧
       l.Pairwise (fun a b => strLe a b = true) ∧ l.Perm (walk_yaml_files fs)) ∧
    (∀ x, x ∈ walk_yaml_files fs ↔ ∃ e, e ∈ fs.walk ∧ ∃ n, n ∈ e.2 ∧
       (strEndsWith n ".yml" || strEndsWith n ".yaml") = true ∧
       x = pyJoin (pyJoin CONFIG_DIR e.1) n) ∧
    (fs.walk = [] → compute_config_file_list fs = STATIC_CONFIG_FILES) := by
  refine ⟨⟨sortStrings (walk_yaml_files fs), rfl, sortStrings_pairwise _,
    sortStrings_perm _⟩, ?_, ?_⟩
  · intro x
    simp only [walk_yaml_files, List.mem_flatten, List.mem_map]
    constructor
    · rintro ⟨l, ⟨e, he, rfl⟩, hx⟩
      rcases List.mem_map.mp hx with ⟨n, hn, rfl⟩
      rcases List.mem_filter.mp hn with ⟨hn2, hpred⟩
      exact ⟨e, he, n, hn2, hpred, rfl⟩
    · rintro ⟨e, he, n, hn, hpred, rfl⟩
      exact ⟨_, ⟨e, he, rfl⟩, List.mem_map.mpr ⟨n, List.mem_filter.mpr ⟨hn, hpred⟩, rfl⟩⟩
  · intro h
    simp [compute_config_file_list, walk_yaml_files, h, sortStrings]

/-- Witness for C7: the spec's example directory (`z.yaml`, `a.yml`)
and the no-directory case. -/
theorem c7_witness :
    compute_config_file_list fsEmpty = STATIC_CONFIG_FILES ∧
    compute_config_file_list fsLoc
      = ["/etc/vault.d/a.yml", "/etc/vault.d/z.yaml",
         "/etc/vault.yml", "~/.vault.yml", "./.vault.yml"] :=
  ⟨(c7_locator fsEmpty).2.2 rfl, rfl⟩

theorem get_vault_options_eq (fs : FS) (environ : List (String × String))
    (kwargs : SettingsDict) :
    get_vault_options fs environ kwargs
      = aggregated fs environ kwargs >>=
          (fun values => select_config values >>= fun v => read_all_files fs v) := rfl

/-- C2: the merge priority of the resolution pipeline: the environment
overrides file contents, explicit overrides override the environment,
untouched settings keep their file-folded (defaults-seeded) value;
within the file fold a later file's scalar wins; the selected profile
block overrides the aggregate; and a secret-file value overwrites the
same-named direct value last. -/
theorem c2_precedence (fs : FS) (environ : List (String × String))
    (env kwargs agg : SettingsDict) (k : String)
    (henv : build_config_from_env environ = .ok env)
    (hagg : aggregated fs environ kwargs = .ok agg) :
    ((dkeys env).Nodup → dget kwargs k = none → ∀ v, dget env k = some v →
      dget agg k = some v) ∧
    ((dkeys kwargs).Nodup → ∀ v, dget kwargs k = some v → dget agg k = some v) ∧
    (dget env k = none → dget kwargs k = none →
      dget agg k = dget (build_config_from_files fs (compute_config_file_list fs)) k) ∧
    (∀ files f fc v, read_config_file fs f = some fc →
      (dkeys (dash_to_underscores fc)).Nodup →
      dget (dash_to_underscores fc) k = some v → v.isDict = false →
      dget (build_config_from_files fs (files ++ [f])) k = some v) ∧
    (∀ values name cs p v, dget values "select_config" = some (.vStr name) → name ≠ "" →
      dget values "configs" = some (.vDict cs) → dget cs name = some (.vDict p) →
      (dkeys p).Nodup → dget p k = some v → v.isDict = false →
      select_config values
        = .ok (recursive_update (dpop (dpop values "select_config") "configs") p) ∧
      dget (recursive_update (dpop (dpop values "select_config") "configs") p) k
        = some v) ∧
    (∀ cfg pth c, dget cfg "password_file" = some (.vStr pth) → pth ≠ "" → pth ≠ "-" →
      fs.raw (expanduser fs.home pth) = some c →
      replace_path_with_content fs cfg "password"
        = .ok (dset (dpop cfg "password_file") "password" (.vStr (strTrim c))) ∧
      dget (dset (dpop cfg "password_file") "password" (.vStr (strTrim c))) "password"
        = some (.vStr (strTrim c))) := by
  have hagg2 : agg
      = dictUpdate (dictUpdate
          (build_config_from_files fs (compute_config_file_list fs)) env) kwargs := by
    simp [aggregated, henv, Bind.bind, Except.bind] at hagg
    exact hagg.symm
  refine ⟨?_, ?_, ?_, ?_, ?_, ?_⟩
  · intro hnd hkw v hv
    rw [hagg2, dget_dictUpdate_not_mem _ _ _ hkw, dget_dictUpdate_mem _ _ _ _ hnd hv]
  · intro hnd v hv
    rw [hagg2, dget_dictUpdate_mem _ _ _ _ hnd hv]
  · intro henvk hkw
    rw [hagg2, dget_dictUpdate_not_mem _ _ _ hkw, dget_dictUpdate_not_mem _ _ _ henvk]
  · intro files f fc v hread hnd hv hvd
    have hb : build_config_from_files fs (files ++ [f])
        = recursive_update
            (build_config_from_files fs files) (dash_to_underscores fc) := by
      rw [build_config_from_files, build_config_from_files_aux_append]
      simp [build_config_from_files_aux, hread, build_config_from_files]
    rw [hb, dget_recursive_update_mem _ _ _ _ hnd hv,
      recursive_update_value_of_not_dict _ _ hvd]
  · intro values name cs p v hn hname hc hp hnd hv hvd
    refine ⟨select_config_ok_profile values name cs p hn hname hc hp, ?_⟩
    rw [dget_recursive_update_mem _ _ _ _ hnd hv,
      recursive_update_value_of_not_dict _ _ hvd]
  · intro cfg pth c hf hpth hdash hraw
    exact ⟨rpwc_ok_read fs cfg "password" pth _ hf hpth (read_file_ok fs pth c hdash hraw),
      dget_dset_self _ _ _⟩

/-- Witness for C2: an explicit override beats the same-named
environment value in the aggregated settings. -/
theorem c2_witness :
    dget (dictUpdate (dictUpdate (build_config_from_files fsEmpty
        (compute_config_file_list fsEmpty)) [("username", .vStr "bob")])
        [("username", .vStr "kw")]) "username" = some (.vStr "kw") :=
  (c2_precedence fsEmpty [("VAULT_CLI_USERNAME", "bob")] [("username", .vStr "bob")]
      [("username", .vStr "kw")]
      (dictUpdate (dictUpdate (build_config_from_files fsEmpty
        (compute_config_file_list fsEmpty)) [("username", .vStr "bob")])
        [("username", .vStr "kw")]) "username" rfl rfl).2.1
    (by decide) (.vStr "kw") rfl

/-- C1 fails as stated: when the selected profile block itself
contains a `configs` key, the profile merge reintroduces it into the
final result of `get_vault_options`. -/
theorem c1_counterexample :
    (get_vault_options fsEmpty [] kwargsReintroduce).map (fun d => dget d "configs")
      = .ok (some (.vStr "x")) := rfl

/-- C1 (amended): the final mapping never contains `password_file` or
`token_file`; it contains `select_config` or `configs` only when the
selected profile block itself supplies that key (in which case the
profile merge reintroduces it), and never otherwise. -/
theorem c1_final_keys (fs : FS) (environ : List (String × String))
    (kwargs : SettingsDict) (d : SettingsDict)
    (h : get_vault_options fs environ kwargs = .ok d) :
    dget d "password_file" = none ∧ dget d "token_file" = none ∧
    (∀ s, s = "select_config" ∨ s = "configs" → dget d s ≠ none →
      ∃ a p, aggregated fs environ kwargs = .ok a ∧ selectedProfile a = some p ∧
        dget p s ≠ none) := by
  rw [get_vault_options_eq] at h
  rcases (except_bind_ok _ _ _).mp h with ⟨a, ha, h2⟩
  rcases (except_bind_ok _ _ _).mp h2 with ⟨v1, hsel, hraf⟩
  rw [read_all_files_eq] at hraf
  rcases (except_bind_ok _ _ _).mp hraf with ⟨mid, hpw, htk⟩
  refine ⟨?_, ?_, ?_⟩
  · have h1 : dget mid "password_file" = none := rpwc_ok_strips fs v1 "password" mid hpw
    exact rpwc_preserves_none fs mid "token" d "password_file" (by decide) htk h1
  · exact rpwc_ok_strips fs mid "token" d htk
  · intro s hs hd
    have hv1 : dget v1 s ≠ none := by
      intro hnone
      have hmid : dget mid s = none :=
        rpwc_preserves_none fs v1 "password" mid s
          (by rcases hs with rfl | rfl <;> decide) hpw hnone
      exact hd (rpwc_preserves_none fs mid "token" d s
        (by rcases hs with rfl | rfl <;> decide) htk hmid)
    rcases select_config_ok_inv a v1 hsel with rfl | ⟨name, cs, p, hn, hname, hc, hp, rfl⟩
    · exfalso
      apply hv1
      rcases hs with rfl | rfl
      · rw [dget_dpop_ne _ _ _ (by decide), dget_dpop_self]
      · exact dget_dpop_self _ _
    · refine ⟨a, p, ha, by simp [selectedProfile, hn, hc, hname, hp], ?_⟩
      intro hpnone
      apply hv1
      have hpop : dget (dpop (dpop a "select_config") "configs") s = none := by
        rcases hs with rfl | rfl
        · rw [dget_dpop_ne _ _ _ (by decide), dget_dpop_self]
        · exact dget_dpop_self _ _
      exact (dget_recursive_update_eq_none _ _ _).mpr ⟨hpop, hpnone⟩

/-- Witness for C1 (amended): a resolution with no profile selected
yields the defaults with all four keys absent. -/
theorem c1_witness :
    dget [("base_path", Value.vNone), ("login_cert", Value.vNone),
      ("login_cert_key", Value.vNone), ("password", Value.vNone),
      ("token", Value.vNone), ("url", Value.vStr "http://localhost:8200"),
      ("username", Value.vNone), ("verify", Value.vBool true),
      ("ca_bundle", Value.vNone), ("safe_write", Value.vBool false),
      ("follow", Value.vBool true)] "password_file" = none ∧
    dget [("base_path", Value.vNone), ("login_cert", Value.vNone),
      ("login_cert_key", Value.vNone), ("password", Value.vNone),
      ("token", Value.vNone), ("url", Value.vStr "http://localhost:8200"),
      ("username", Value.vNone), ("verify", Value.vBool true),
      ("ca_bundle", Value.vNone), ("safe_write", Value.vBool false),
      ("follow", Value.vBool true)] "token_file" = none :=
  ⟨(c1_final_keys fsEmpty [] [] _ rfl).1, (c1_final_keys fsEmpty [] [] _ rfl).2.1⟩
